import Mathlib

/-
Shallow embedding of the fund-analytics pipeline of this repository:
src/app/data_formating.py, src/app/data_loader.py, src/app/portfolio.py
and src/app/descriptive_stats.py.

Modelling conventions:
- floats are idealised as exact rationals (and as reals where the code
  takes square roots or fractional powers);
- missing values (NaN / None) are modelled with Option;
- Python exceptions are modelled with Except;
- dates in the loading pipeline are modelled as rationals on a
  chronological scale (the encoding y*10000 + m*100 + d is monotone in
  the calendar order); dates in the periodicity check are integer day
  numbers, so that timedelta.days is integer subtraction.
-/

/-- A raw spreadsheet cell as produced by the csv reader: a number, a
string, or a missing value (NaN). -/
inductive Cell where
  | cnum (q : ℚ)
  | cstr (s : String)
  | cnone
  deriving DecidableEq

def Cell.isNum : Cell → Bool
  | .cnum _ => true
  | _ => false

def Cell.isStr : Cell → Bool
  | .cstr _ => true
  | _ => false

def Cell.isMissing : Cell → Bool
  | .cnone => true
  | _ => false

def Cell.numVal : Cell → Option ℚ
  | .cnum q => some q
  | _ => none

/-- Value of a list of decimal digit characters. -/
def digitsVal (l : List Char) : ℕ :=
  l.foldl (fun acc c => 10 * acc + (c.toNat - 48)) 0

def allDigits (l : List Char) : Bool :=
  !l.isEmpty && l.all Char.isDigit

/-- Split a character list on a separator character. -/
def splitChar (sep : Char) : List Char → List (List Char)
  | [] => [[]]
  | c :: cs =>
    let r := splitChar sep cs
    if c = sep then [] :: r
    else
      match r with
      | [] => [[c]]
      | h :: t => (c :: h) :: t

def isLeapYear (y : ℕ) : Bool :=
  (y % 4 == 0) && (y % 100 != 0 || y % 400 == 0)

def daysInMonth (y m : ℕ) : ℕ :=
  if m = 2 then (if isLeapYear y then 29 else 28)
  else if m = 4 ∨ m = 6 ∨ m = 9 ∨ m = 11 then 30
  else 31

/-- A calendar-valid (year, month, day) triple encoded monotonically on
a rational scale. -/
def mkDate? (y m d : ℕ) : Option ℚ :=
  if 1 ≤ m ∧ m ≤ 12 ∧ 1 ≤ d ∧ d ≤ daysInMonth y m then
    some ((y * 10000 + m * 100 + d : ℕ) : ℚ)
  else none

/-- The four explicit date formats tried by DataFormating._date_converter. -/
inductive DateFmt where
  | ymdDash
  | dmyDot
  | dmySlash
  | mdySlash
  deriving DecidableEq

def fmtOrder : List DateFmt := [.ymdDash, .dmyDot, .dmySlash, .mdySlash]

def parseFmtStr (f : DateFmt) (s : String) : Option ℚ :=
  let sep : Char := match f with
    | .ymdDash => '-'
    | .dmyDot => '.'
    | _ => '/'
  match splitChar sep s.data with
  | [a, b, c] =>
    let ymd : List Char × List Char × List Char := match f with
      | .ymdDash => (a, b, c)
      | .dmyDot => (c, b, a)
      | .dmySlash => (c, b, a)
      | .mdySlash => (c, a, b)
    if allDigits ymd.1 && allDigits ymd.2.1 && allDigits ymd.2.2 &&
        ymd.1.length ≤ 4 && ymd.2.1.length ≤ 2 && ymd.2.2.length ≤ 2 then
      mkDate? (digitsVal ymd.1) (digitsVal ymd.2.1) (digitsVal ymd.2.2)
    else none
  | _ => none

def parseFmtCell (f : DateFmt) (c : Cell) : Option ℚ :=
  match c with
  | .cstr s => parseFmtStr f s
  | _ => none

/-- pandas.to_datetime with an explicit format on a whole column:
succeeds only when every value parses. -/
def tryFormat (f : DateFmt) (cells : List Cell) : Option (List ℚ) :=
  cells.mapM (parseFmtCell f)

/-- Models the generic pandas.to_datetime attempt of
DataFormating._date_converter: a column that is already date/number
typed converts as-is; a column holding strings is modelled as raising
ValueError, which sends the code to the explicit-format fallback. -/
def genericToDatetime (cells : List Cell) : Except Unit (List ℚ) :=
  match cells.mapM Cell.numVal with
  | some qs => .ok qs
  | none => .error ()

/-- Embeds DataFormating._date_converter: a generic parse attempt, then
the four explicit formats tried in order inside try/except, and an
implicit None when everything fails (the Python for-loop falls through
and the method returns None rather than raising). -/
def dateConverter (cells : List Cell) : Option (List ℚ) :=
  match genericToDatetime cells with
  | .ok ds => some ds
  | .error _ =>
    match tryFormat .ymdDash cells with
    | some ds => some ds
    | none =>
      match tryFormat .dmyDot cells with
      | some ds => some ds
      | none =>
        match tryFormat .dmySlash cells with
        | some ds => some ds
        | none =>
          match tryFormat .mdySlash cells with
          | some ds => some ds
          | none => none

/-- One row of DataFormating._header_row holds a header sentinel when a
cell is literally one of the three date aliases. -/
def rowMatchesDate (row : List Cell) : Bool :=
  row.any (fun c =>
    match c with
    | .cstr s => s == "Date" || s == "DATE" || s == "Date de valorisation"
    | _ => false)

def headerRowAux : ℕ → List (List Cell) → ℕ
  | _, [] => 0
  | i, r :: rs => if rowMatchesDate r then i + 1 else headerRowAux (i + 1) rs

/-- Embeds DataFormating._header_row: iterate over the rows in document
order, return i+1 at the first row containing a date alias, 0 if none. -/
def headerRow (t : List (List Cell)) : ℕ := headerRowAux 0 t

/-- Index of the first matching row, used to characterise headerRow. -/
def firstMatchIdx : List (List Cell) → Option ℕ
  | [] => none
  | r :: rs => if rowMatchesDate r then some 0 else (firstMatchIdx rs).map (· + 1)

/-- The str.replace(',', '.') step of DataFormating._float_converter. -/
def commaToDot (s : String) : String :=
  String.mk (s.data.map (fun c => if c = ',' then '.' else c))

/-- A plain decimal numeral, as accepted by float(...) on the cleaned
string: digits with at most one decimal point. -/
def parseUnsigned (l : List Char) : Option ℚ :=
  match splitChar '.' l with
  | [ip] => if allDigits ip then some ((digitsVal ip : ℕ) : ℚ) else none
  | [ip, fp] =>
    if ip.all Char.isDigit && fp.all Char.isDigit && !(ip.isEmpty && fp.isEmpty) then
      some ((digitsVal ip : ℚ) + (digitsVal fp : ℚ) / ((10 : ℚ) ^ fp.length))
    else none
  | _ => none

def parseFloatStr (s : String) : Option ℚ :=
  match s.data with
  | '-' :: rest => (parseUnsigned rest).map Neg.neg
  | l => parseUnsigned l

/-- Embeds DataFormating._float_converter on one non-Date column: a
column holding any string has object dtype, so every entry goes through
str.replace and float(...) (failing on a non-string or unparsable
entry); an already numeric column is left untouched. -/
def floatConverter (cells : List Cell) : Option (List ℚ) :=
  if cells.any Cell.isStr then
    cells.mapM (fun c =>
      match c with
      | .cstr s => parseFloatStr (commaToDot s)
      | _ => none)
  else cells.mapM Cell.numVal

/-- The date-column header aliases of NavLoader._clean_dataframe. -/
def isDateAlias (s : String) : Bool :=
  s == "Date" || s == " Date de valorisation" || s == "DATE"

/-- The value-column header aliases of NavLoader._clean_dataframe. -/
def isNavAlias (s : String) : Bool :=
  s == "NAV" || s == "Price" || s == "VL" || s == "NAV ($)" ||
  s == "Clôture/Dernier" || s == "Close" || s == "Nav"

/-- A raw table: named columns of cells, in file order. -/
abbrev RawTable := List (String × List Cell)

/-- The columns of a raw table whose header matches a date alias or a
value alias, collected in file order (the two ifs of the loop in
NavLoader._clean_dataframe). -/
def matchedCols (cols : RawTable) : RawTable :=
  cols.filter (fun c => isDateAlias c.1 || isNavAlias c.1)

/-- The positional rename result.columns = ['Date', 'NAV']: the first
matched column becomes Date and the second becomes NAV, whatever alias
each one matched; any other number of matched columns raises. -/
def renameStep (cols : RawTable) : Except Unit (List Cell × List Cell) :=
  match matchedCols cols with
  | [a, b] => .ok (a.2, b.2)
  | _ => .error ()

/-- A cleaned row: an optional parsed date and a numeric NAV. -/
abbrev CleanRow := Option ℚ × ℚ

def rkey (r : CleanRow) : ℚ := r.1.getD 0

def insertRow (x : CleanRow) : List CleanRow → List CleanRow
  | [] => [x]
  | y :: ys => if rkey x ≤ rkey y then x :: y :: ys else y :: insertRow x ys

/-- Sort by date. pandas sort_values keeps duplicate keys; no
deduplication happens anywhere in the pipeline. -/
def sortRows : List CleanRow → List CleanRow
  | [] => []
  | x :: xs => insertRow x (sortRows xs)

/-- The sort_values(by='Date') step. pandas masks missing sort keys
(nargsort over isna) and never compares them: the rows with a set date
are sorted by date and the rows with an unset date are placed after
them (na_position='last'), so the sort succeeds whatever the dates. -/
def sortStep (rows : List CleanRow) : List CleanRow :=
  sortRows (rows.filter (fun r => r.1.isSome)) ++
    rows.filter (fun r => r.1.isNone)

/-- dropna(): drop every row with a missing cell. -/
def dropnaRows (rows : List (Cell × Cell)) : List (Cell × Cell) :=
  rows.filter (fun r => !(r.1.isMissing || r.2.isMissing))

/-- Embeds NavLoader._clean_dataframe: select and positionally rename
the matched columns, drop rows with missing values, convert the Date
column (None column when no parse succeeds), convert the NAV column to
numbers, and sort ascending by date. -/
def cleanDataframe (cols : RawTable) : Except Unit (List CleanRow) := do
  let sel ← renameStep cols
  let rows := dropnaRows (sel.1.zip sel.2)
  let ds? := dateConverter (rows.map Prod.fst)
  let vals ← match floatConverter (rows.map Prod.snd) with
    | some vs => Except.ok vs
    | none => Except.error ()
  let rows2 := match ds? with
    | some ds => (ds.map some).zip vals
    | none => vals.map (fun v => ((none : Option ℚ), v))
  Except.ok (sortStep rows2)

inductive ImportError where
  | dataImportError
  deriving DecidableEq

/-- Embeds NavLoader.load_nav_data: any failure inside the cleaning is
re-raised as DataImportError. -/
def loadNavData (cols : RawTable) : Except ImportError (List CleanRow) :=
  (cleanDataframe cols).mapError (fun _ => ImportError.dataImportError)

/-- The two failure modes of Portfolio._periodicity_adjustment: the
explicit unsupported-periodicity Exception, and the pandas KeyError
raised by dates[2] / dates[1] when the label is absent. -/
inductive PeriodicityFailure where
  | unsupported
  | indexKeyError
  deriving DecidableEq

/-- Embeds Portfolio._periodicity_adjustment: reads dates[2] - dates[1]
(dates[2] is evaluated first, raising KeyError on a series with fewer
than 3 points), then classifies the gap in days. -/
def periodicityAdjustment (dates : List ℤ) : Except PeriodicityFailure ℕ :=
  match dates[2]? with
  | none => .error .indexKeyError
  | some d2 =>
    match dates[1]? with
    | none => .error .indexKeyError
    | some d1 =>
      if d2 - d1 < 7 then .ok 252
      else if 27 < d2 - d1 ∧ d2 - d1 ≤ 31 then .ok 12
      else .error .unsupported

/-- A pandas Series: (index label, value) pairs. After the date-joins
of Portfolio.reporting the label is the shared date/row key. -/
abbrev Series := List (ℤ × ℚ)

def seriesValues (s : Series) : List ℚ := s.map Prod.snd

/-- pct_change().dropna() on plain values: NAV[t]/NAV[t-1] - 1 with the
first row dropped. -/
def pctChange (xs : List ℚ) : List ℚ :=
  List.zipWith (fun p c => c / p - 1) xs xs.tail

/-- DescriptiveStatistics2.calculate_daily_returns: pct_change keeps the
label of the current row and drops the first row. -/
def dailyReturnsS (s : Series) : Series :=
  List.zipWith (fun p c => (c.1, c.2 / p.2 - 1)) s s.tail

def slookup (k : ℤ) : Series → Option ℚ
  | [] => none
  | p :: ps => if p.1 = k then some p.2 else slookup k ps

/-- Inner alignment on index labels: keep the rows of a whose label also
appears in b, combining the two values. -/
def joinWith (f : ℤ × ℚ → ℚ → α) (a b : Series) : List α :=
  a.filterMap (fun p => (slookup p.1 b).map (fun w => f p w))

/-- align(_, join='inner') followed by subtraction (also the pandas
a - b followed by dropna() used for the benchmark excess). -/
def seriesSub (a b : Series) : Series :=
  joinWith (fun p w => (p.1, p.2 - w)) a b

/-- align(_, join='inner') keeping both sides. -/
def alignInner (a b : Series) : List (ℤ × ℚ × ℚ) :=
  joinWith (fun p w => (p.1, p.2, w)) a b

def meanQ (xs : List ℚ) : ℚ := xs.sum / (xs.length : ℚ)

/-- np.var: population variance (ddof = 0). -/
def popVar (xs : List ℚ) : ℚ :=
  ((xs.map (fun x => (x - meanQ xs) ^ 2)).sum) / (xs.length : ℚ)

/-- np.cov(x, y)[0, 1]: sample covariance (ddof = 1). -/
def sampleCov (xs ys : List ℚ) : ℚ :=
  ((List.zipWith (fun x y => (x - meanQ xs) * (y - meanQ ys)) xs ys).sum) /
    ((xs.length : ℚ) - 1)

/-- pandas .std(): sample variance (ddof = 1) under the square root. -/
def sampleVar (xs : List ℚ) : ℚ :=
  ((xs.map (fun x => (x - meanQ xs) ^ 2)).sum) / ((xs.length : ℚ) - 1)

/-- Embeds DescriptiveStatistics2.calculate_alpha_beta: fund excess
returns aligned with benchmark excess returns (benchmark minus
risk-free), then beta = np.cov(..)[0,1] / np.var(..) and
alpha = (mean(fund excess) - beta * mean(bench excess)) * annualization.
The empty-alignment and zero-variance cases return NaN (none), not an
exception. -/
def calcAlphaBeta (nav rf bench : Series) (N : ℕ) : Option (ℚ × ℚ) :=
  let fe := seriesSub (dailyReturnsS nav) rf
  let be := seriesSub bench rf
  let joined := alignInner fe be
  if joined = [] then none
  else
    let xs := joined.map (fun t => t.2.1)
    let ys := joined.map (fun t => t.2.2)
    if popVar ys = 0 then none
    else
      let beta := sampleCov xs ys / popVar ys
      some ((meanQ xs - beta * meanQ ys) * (N : ℚ), beta)

/-- Embeds DescriptiveStatistics2.calculate_beta_up_and_down: partition
the aligned excess returns by benchmark excess above/below its mean and
apply the same cov/var formula on each part, requiring more than one
point and nonzero variance. -/
def betaUpDown (nav rf bench : Series) : Option ℚ × Option ℚ :=
  let j := alignInner (seriesSub (dailyReturnsS nav) rf) (seriesSub bench rf)
  if j = [] then (none, none)
  else
    let m := meanQ (j.map (fun t => t.2.2))
    let up := j.filter (fun t => m ≤ t.2.2)
    let dn := j.filter (fun t => t.2.2 < m)
    let bUp :=
      if 1 < up.length ∧ popVar (up.map (fun t => t.2.2)) ≠ 0 then
        some (sampleCov (up.map (fun t => t.2.1)) (up.map (fun t => t.2.2)) /
          popVar (up.map (fun t => t.2.2)))
      else none
    let bDn :=
      if 1 < dn.length ∧ popVar (dn.map (fun t => t.2.2)) ≠ 0 then
        some (sampleCov (dn.map (fun t => t.2.1)) (dn.map (fun t => t.2.2)) /
          popVar (dn.map (fun t => t.2.2)))
      else none
    (bUp, bDn)

def cumprodAux (a : ℚ) : List ℚ → List ℚ
  | [] => []
  | x :: xs => (a * x) :: cumprodAux (a * x) xs

/-- (1 + daily_returns).cumprod(). -/
def cumprod (l : List ℚ) : List ℚ := cumprodAux 1 l

def cummaxAux (m : ℚ) : List ℚ → List ℚ
  | [] => []
  | x :: xs => (max m x) :: cummaxAux (max m x) xs

/-- Running maximum, .cummax(). -/
def cummax : List ℚ → List ℚ
  | [] => []
  | x :: xs => x :: cummaxAux x xs

/-- Series.min(): none on an empty series. -/
def minQ : List ℚ → Option ℚ
  | [] => none
  | x :: xs => some (xs.foldl min x)

/-- Embeds DescriptiveStatistics2.calculate_maximum_drawdown. -/
def maximumDrawdown (navVals : List ℚ) : Option ℚ :=
  let r := pctChange navVals
  let c := cumprod (r.map (fun x => 1 + x))
  let p := cummax c
  minQ (List.zipWith (fun ci pi => (ci - pi) / pi) c p)

/-- Embeds DescriptiveStatistics2.calculate_performance: total return
NAV[last]/NAV[first] - 1 on the cleaned series and annualized return
(1 + total) ** (annualization / n_obs) - 1, where n_obs is the number
of rows. The model Series carries no NaN, so the dropna() of the code
is the identity here; an empty series raises (none). -/
noncomputable def calculate_performance (navVals : List ℚ) (N : ℕ) : Option (ℚ × ℝ) :=
  match navVals.getLast?, navVals.head? with
  | some l, some h =>
    let tot := l / h - 1
    some (tot, Real.rpow (1 + (tot : ℝ)) ((N : ℝ) / (navVals.length : ℝ)) - 1)
  | _, _ => none

/-- pandas .std() over rationals, as a real: NaN (none) when fewer than
two observations (ddof = 1). -/
noncomputable def stdQ? (xs : List ℚ) : Option ℝ :=
  if xs.length ≤ 1 then none else some (Real.sqrt ((sampleVar xs : ℚ) : ℝ))

/-- Embeds DescriptiveStatistics2.calculate_volatility:
std(daily returns) * sqrt(annualization). -/
noncomputable def calculate_volatility (nav : Series) (N : ℕ) : Option ℝ :=
  (stdQ? (pctChange (seriesValues nav))).map (fun v => v * Real.sqrt (N : ℝ))

/-- Embeds DescriptiveStatistics2.calculate_excess_returns: compounded
total excess return and its annualization; NaN (none) when the aligned
excess-return series is empty. -/
noncomputable def calculate_excess_returns (nav rf : Series) (N : ℕ) : Option (ℚ × ℝ) :=
  let e := seriesValues (seriesSub (dailyReturnsS nav) rf)
  if e = [] then none
  else
    let tot := (e.map (fun x => 1 + x)).prod - 1
    some (tot, Real.rpow (1 + (tot : ℝ)) ((N : ℝ) / (e.length : ℝ)) - 1)

noncomputable def annualizedExcess (nav rf : Series) (N : ℕ) : Option ℝ :=
  (calculate_excess_returns nav rf N).map Prod.snd

/-- Embeds DescriptiveStatistics2.calculate_downside_volatility:
exactly 0.0 when no date has fund return below the risk-free rate,
otherwise std of the negative differences times sqrt(annualization)
(NaN when only one such date exists, as pandas std of one point). -/
noncomputable def downsideVol (nav rf : Series) (N : ℕ) : Option ℝ :=
  let neg := (seriesValues (seriesSub (dailyReturnsS nav) rf)).filter (fun x => x < 0)
  if neg = [] then some 0
  else (stdQ? neg).map (fun v => v * Real.sqrt (N : ℝ))

/-- The value of one reported statistic: a float, NaN, or a signed
infinity. -/
inductive SVal where
  | nan
  | posInf
  | negInf
  | val (x : ℝ)

/-- The shared shape of calculate_sharpe_ratio and
calculate_sortino_ratio: the Python check denominator == 0 (False for a
NaN denominator) saturates to np.inf when the excess is > 0 and -np.inf
otherwise (a NaN excess compares False, giving -np.inf); otherwise the
plain quotient, NaN-propagating. -/
noncomputable def ratioWithSaturation (ae av : Option ℝ) : SVal :=
  if av = some 0 then
    match ae with
    | some e => if 0 < e then .posInf else .negInf
    | none => .negInf
  else
    match av with
    | some v =>
      match ae with
      | some e => .val (e / v)
      | none => .nan
    | none => .nan

/-- Embeds DescriptiveStatistics2.calculate_sharpe_ratio: annualized
excess over annualized volatility with zero-volatility saturation. -/
noncomputable def calcSharpe (nav rf : Series) (N : ℕ) : SVal :=
  ratioWithSaturation (annualizedExcess nav rf N) (calculate_volatility nav N)

/-- Embeds DescriptiveStatistics2.calculate_sortino_ratio: annualized
excess over downside volatility with the same saturation rule. -/
noncomputable def calcSortino (nav rf : Series) (N : ℕ) : SVal :=
  ratioWithSaturation (annualizedExcess nav rf N) (downsideVol nav rf N)

/-- Embeds DescriptiveStatistics2.calculate_tracking_error. -/
noncomputable def trackingError (nav bench : Series) (N : ℕ) : Option ℝ :=
  let j := alignInner (dailyReturnsS nav) bench
  if j = [] then none
  else (stdQ? (j.map (fun t => t.2.1 - t.2.2))).map (fun v => v * Real.sqrt (N : ℝ))

noncomputable def svalOfQ : Option ℚ → SVal
  | some q => .val ((q : ℚ) : ℝ)
  | none => .nan

noncomputable def svalOfR : Option ℝ → SVal
  | some x => .val x
  | none => .nan

/-- Embeds DescriptiveStatistics2.reporting_stats: the 14 statistics in
the order of the stats_list literal. The only step that can raise is
calculate_performance on an empty series, which makes the whole call
fail (none). -/
noncomputable def reportingStats (nav rf bench : Series) (N : ℕ) : Option (List SVal) :=
  match calculate_performance (seriesValues nav) N with
  | none => none
  | some (tot, ann) =>
    some [SVal.val ann,
      SVal.val ((tot : ℚ) : ℝ),
      svalOfR (calculate_volatility nav N),
      calcSharpe nav rf N,
      calcSortino nav rf N,
      svalOfR (downsideVol nav rf N),
      svalOfQ ((calculate_excess_returns nav rf N).map Prod.fst),
      svalOfR (annualizedExcess nav rf N),
      svalOfQ ((calcAlphaBeta nav rf bench N).map Prod.snd),
      svalOfR (trackingError nav bench N),
      svalOfQ ((calcAlphaBeta nav rf bench N).map Prod.fst),
      svalOfQ (betaUpDown nav rf bench).1,
      svalOfQ (betaUpDown nav rf bench).2,
      svalOfQ (maximumDrawdown (seriesValues nav))]

/-- The row labels of the report table built by Portfolio.reporting
(the index dictionary at the end of the method, in order). -/
def reportLabels : List String :=
  ["Perf annualisée", "Perf totale", "Vol", "Sharpe", "Sortino",
   "Downside vol", "Rendement excédentaire total",
   "Rendemente excédentaire annualisé", "beta", "TE", "alpha",
   "beta up", "beta down", "MDD"]

/-- Concrete 250-observation NAV series used to witness the annualized
return scenario (total return 1/8 over 250 rows). -/
def wNav250 : List ℚ := List.replicate 249 (8 : ℚ) ++ [9]

instance {ε α : Type} [DecidableEq ε] [DecidableEq α] : DecidableEq (Except ε α) :=
  fun a b => by
    cases a with
    | ok x =>
      cases b with
      | ok y =>
        exact if h : x = y then .isTrue (by rw [h])
          else .isFalse (fun hc => h (by injection hc))
      | error f => exact .isFalse (fun hc => Except.noConfusion hc)
    | error e =>
      cases b with
      | ok y => exact .isFalse (fun hc => Except.noConfusion hc)
      | error f =>
        exact if h : e = f then .isTrue (by rw [h])
          else .isFalse (fun hc => h (by injection hc))

/- ======================= theorems ======================= -/

theorem headerRowAux_eq (t : List (List Cell)) : ∀ i : ℕ,
    headerRowAux i t = ((firstMatchIdx t).map (fun k => i + k + 1)).getD 0 := by
  induction t with
  | nil => intro i; rfl
  | cons r rs ih =>
    intro i
    by_cases h : rowMatchesDate r
    · simp [headerRowAux, firstMatchIdx, h]
    · have hA : headerRowAux i (r :: rs) = headerRowAux (i + 1) rs := by
        simp [headerRowAux, h]
      have hB : firstMatchIdx (r :: rs) = (firstMatchIdx rs).map (· + 1) := by
        simp [firstMatchIdx, h]
      rw [hA, hB, ih (i + 1)]
      cases hf : firstMatchIdx rs
      · rfl
      · simp only [Option.map_some', Option.getD_some, Option.map_map,
          Function.comp]
        omega

theorem firstMatchIdx_eq_none (t : List (List Cell)) :
    firstMatchIdx t = none ↔ ∀ r ∈ t, rowMatchesDate r = false := by
  induction t with
  | nil => simp [firstMatchIdx]
  | cons r rs ih =>
    by_cases h : rowMatchesDate r
    · simp [firstMatchIdx, h]
    · simp [firstMatchIdx, h, Option.map_eq_none', ih]

theorem firstMatchIdx_first (t : List (List Cell)) : ∀ (i : ℕ) (r : List Cell),
    t[i]? = some r → rowMatchesDate r = true →
    (∀ (j : ℕ) (rj : List Cell), j < i → t[j]? = some rj → rowMatchesDate rj = false) →
    firstMatchIdx t = some i := by
  induction t with
  | nil => intro i r h; simp at h
  | cons a t ih =>
    intro i r h hr hprev
    cases i with
    | zero =>
      simp only [List.getElem?_cons_zero, Option.some.injEq] at h
      subst h
      simp [firstMatchIdx, hr]
    | succ n =>
      have ha : rowMatchesDate a = false :=
        hprev 0 a (Nat.succ_pos n) (by simp)
      have ht : firstMatchIdx t = some n := by
        apply ih n r (by simpa using h) hr
        intro j rj hj hg
        exact hprev (j + 1) rj (by omega) (by simpa using hg)
      simp [firstMatchIdx, ha, ht]

/-- C6: DataFormating._header_row scans rows top-to-bottom in document
order; it returns i+1 for the first row i containing a cell literally
equal to "Date", "DATE" or "Date de valorisation", returning on that
first match, and returns 0 when no row matches. It is a pure function,
hence deterministic. -/
theorem c6_header_row (t : List (List Cell)) :
    (headerRow t = 0 ↔ ∀ r ∈ t, rowMatchesDate r = false) ∧
    (∀ (i : ℕ) (r : List Cell), t[i]? = some r → rowMatchesDate r = true →
      (∀ (j : ℕ) (rj : List Cell), j < i → t[j]? = some rj →
        rowMatchesDate rj = false) →
      headerRow t = i + 1) := by
  constructor
  · rw [headerRow, headerRowAux_eq]
    cases hf : firstMatchIdx t with
    | none =>
      exact iff_of_true rfl ((firstMatchIdx_eq_none t).mp hf)
    | some k =>
      simp only [Option.map_some', Option.getD_some]
      refine iff_of_false (by omega) ?_
      intro hall
      rw [(firstMatchIdx_eq_none t).mpr hall] at hf
      exact Option.noConfusion hf
  · intro i r h hr hprev
    rw [headerRow, headerRowAux_eq, firstMatchIdx_first t i r h hr hprev]
    simp only [Option.map_some', Option.getD_some]
    omega

theorem c6_header_row_witness :
    rowMatchesDate [Cell.cnum 3, Cell.cstr "Date"] = true ∧
    headerRow [[Cell.cstr "junk"], [Cell.cnum 3, Cell.cstr "Date"]] = 2 := by
  refine ⟨by decide, ?_⟩
  apply (c6_header_row [[Cell.cstr "junk"], [Cell.cnum 3, Cell.cstr "Date"]]).2
    1 [Cell.cnum 3, Cell.cstr "Date"] (by decide) (by decide)
  intro j rj hj hg
  have hj0 : j = 0 := by omega
  subst hj0
  have : rj = [Cell.cstr "junk"] := by simpa using hg.symm
  subst this
  decide

theorem findSomeQ_cons (f : α → Option β) (a : α) (l : List α) :
    List.findSome? f (a :: l) =
      (match f a with
       | some b => some b
       | none => List.findSome? f l) := rfl

/-- C7: DataFormating._date_converter first attempts a generic date
parse; on failure it retries the explicit formats %Y-%m-%d, %d.%m.%Y,
%d/%m/%Y, %m/%d/%Y in that fixed order, returning the result of the
first format that parses every value; if no format parses, the caller
receives None (an unset result), not an exception. -/
theorem c7_date_converter (cells : List Cell) :
    dateConverter cells =
      (match genericToDatetime cells with
       | .ok ds => some ds
       | .error _ => fmtOrder.findSome? (fun f => tryFormat f cells)) ∧
    ((genericToDatetime cells).isOk = false →
      (∀ f ∈ fmtOrder, tryFormat f cells = none) →
      dateConverter cells = none) := by
  have h1 : dateConverter cells =
      (match genericToDatetime cells with
       | .ok ds => some ds
       | .error _ => fmtOrder.findSome? (fun f => tryFormat f cells)) := by
    cases hg : genericToDatetime cells with
    | ok ds => simp [dateConverter, hg]
    | error e =>
      simp only [dateConverter, hg, fmtOrder]
      rw [findSomeQ_cons, findSomeQ_cons, findSomeQ_cons, findSomeQ_cons]
      cases tryFormat .ymdDash cells <;>
        cases tryFormat .dmyDot cells <;>
        cases tryFormat .dmySlash cells <;>
        cases tryFormat .mdySlash cells <;>
        simp [List.findSome?]
  refine ⟨h1, ?_⟩
  intro hg hall
  rw [h1]
  cases hgE : genericToDatetime cells with
  | ok ds => rw [hgE] at hg; simp [Except.isOk, Except.toBool] at hg
  | error e =>
    simp only []
    have e1 := hall .ymdDash (by simp [fmtOrder])
    have e2 := hall .dmyDot (by simp [fmtOrder])
    have e3 := hall .dmySlash (by simp [fmtOrder])
    have e4 := hall .mdySlash (by simp [fmtOrder])
    simp [fmtOrder, List.findSome?, e1, e2, e3, e4]

theorem c7_date_converter_witness :
    (genericToDatetime [Cell.cstr "garbage"]).isOk = false ∧
    dateConverter [Cell.cstr "garbage"] = none :=
  ⟨by decide, (c7_date_converter [Cell.cstr "garbage"]).2 (by decide) (by decide)⟩

/-- C2 as stated is false on the code: a series with fewer than 3
points does not fail with the unsupported-periodicity error; evaluating
dates[2] raises a pandas KeyError instead. -/
theorem c2_periodicity_counterexample :
    periodicityAdjustment [0, 5] = Except.error PeriodicityFailure.indexKeyError ∧
    periodicityAdjustment [0, 5] ≠ Except.error PeriodicityFailure.unsupported := by
  refine ⟨rfl, ?_⟩
  intro h
  have hcd : PeriodicityFailure.indexKeyError = PeriodicityFailure.unsupported := by
    injection h
  exact PeriodicityFailure.noConfusion hcd

/-- C2 amended: periodicity inference reads the gap between the dates
at index 1 and index 2 (the first gap is skipped): a gap under 7 days
gives annualization 252 (Daily), a gap strictly greater than 27 and at
most 31 days gives 12 (Monthly), any other gap fails with the
unsupported-periodicity error; a series with fewer than 3 points fails
too, but with an index-lookup (KeyError) failure rather than the
unsupported-periodicity error. -/
theorem c2_periodicity_amended (l : List ℤ) (d1 d2 : ℤ)
    (h1 : l[1]? = some d1) (h2 : l[2]? = some d2) :
    (d2 - d1 < 7 → periodicityAdjustment l = .ok 252) ∧
    (27 < d2 - d1 ∧ d2 - d1 ≤ 31 → periodicityAdjustment l = .ok 12) ∧
    (¬(d2 - d1 < 7) → ¬(27 < d2 - d1 ∧ d2 - d1 ≤ 31) →
      periodicityAdjustment l = .error PeriodicityFailure.unsupported) ∧
    (∀ l2 : List ℤ, l2.length < 3 →
      periodicityAdjustment l2 = .error PeriodicityFailure.indexKeyError) := by
  refine ⟨?_, ?_, ?_, ?_⟩
  · intro hlt
    simp [periodicityAdjustment, h1, h2, hlt]
  · intro hm
    have hnlt : ¬(d2 - d1 < 7) := by omega
    simp [periodicityAdjustment, h1, h2, hnlt, hm]
  · intro hnlt hnm
    simp only [periodicityAdjustment, h1, h2]
    rw [if_neg hnlt, if_neg hnm]
  · intro l2 hlen
    have h2n : l2[2]? = none := by
      apply List.getElem?_eq_none
      omega
    simp [periodicityAdjustment, h2n]

theorem c2_periodicity_witness :
    periodicityAdjustment [0, 1, 2] = .ok 252 ∧
    periodicityAdjustment [0, 1, 31] = .ok 12 ∧
    periodicityAdjustment [0, 1, 16] = .error PeriodicityFailure.unsupported ∧
    periodicityAdjustment [0, 5] = .error PeriodicityFailure.indexKeyError :=
  ⟨(c2_periodicity_amended [0, 1, 2] 1 2 (by decide) (by decide)).1 (by decide),
   (c2_periodicity_amended [0, 1, 31] 1 31 (by decide) (by decide)).2.1 (by decide),
   (c2_periodicity_amended [0, 1, 16] 1 16 (by decide) (by decide)).2.2.1
     (by decide) (by decide),
   (c2_periodicity_amended [0, 1, 2] 1 2 (by decide) (by decide)).2.2.2
     [0, 5] (by decide)⟩

theorem renameStep_error (cols : RawTable)
    (h : (matchedCols cols).length ≠ 2) : renameStep cols = .error () := by
  unfold renameStep
  cases hm : matchedCols cols with
  | nil => rfl
  | cons a t =>
    cases t with
    | nil => rfl
    | cons b t2 =>
      cases t2 with
      | nil => exfalso; apply h; rw [hm]; rfl
      | cons c t3 => rfl

/-- C9: NavLoader._clean_dataframe assigns the canonical names by
column position, not by which alias matched: the matched columns are
collected in file order and renamed ['Date', 'NAV'] positionally, so
with a value-alias column first the value data is labeled Date; and
whenever the matched columns number anything other than exactly two,
load_nav_data raises DataImportError. -/
theorem c9_positional_rename (cols : RawTable) :
    ((matchedCols cols).length ≠ 2 →
      loadNavData cols = .error ImportError.dataImportError) ∧
    (∀ (n1 : String) (c1 : List Cell) (n2 : String) (c2 : List Cell),
      matchedCols cols = [(n1, c1), (n2, c2)] →
      renameStep cols = .ok (c1, c2)) := by
  constructor
  · intro h
    have hre := renameStep_error cols h
    have hclean : cleanDataframe cols = .error () := by
      simp [cleanDataframe, hre, Bind.bind, Except.bind]
    unfold loadNavData
    rw [hclean]
    rfl
  · intro n1 c1 n2 c2 hm
    simp [renameStep, hm]

theorem c9_positional_rename_witness :
    (matchedCols [(("foo" : String), [Cell.cnum 1])]).length ≠ 2 ∧
    loadNavData [(("foo" : String), [Cell.cnum 1])] =
      .error ImportError.dataImportError ∧
    matchedCols [(("NAV" : String), [Cell.cnum 2]), (("Date" : String), [Cell.cstr "x"])] =
      [(("NAV" : String), [Cell.cnum 2]), (("Date" : String), [Cell.cstr "x"])] ∧
    renameStep [(("NAV" : String), [Cell.cnum 2]), (("Date" : String), [Cell.cstr "x"])] =
      .ok ([Cell.cnum 2], [Cell.cstr "x"]) :=
  ⟨by decide,
   (c9_positional_rename [(("foo" : String), [Cell.cnum 1])]).1 (by decide),
   by decide,
   (c9_positional_rename
     [(("NAV" : String), [Cell.cnum 2]), (("Date" : String), [Cell.cstr "x"])]).2
     "NAV" [Cell.cnum 2] "Date" [Cell.cstr "x"] (by decide)⟩

theorem cumprodAux_pos : ∀ (l : List ℚ) (a : ℚ), 0 < a → (∀ x ∈ l, 0 < x) →
    ∀ y ∈ cumprodAux a l, 0 < y := by
  intro l
  induction l with
  | nil => intro a _ _ y hy; simp [cumprodAux] at hy
  | cons x xs ih =>
    intro a ha hall y hy
    rw [show cumprodAux a (x :: xs) = (a * x) :: cumprodAux (a * x) xs from rfl] at hy
    rcases List.mem_cons.mp hy with h | h
    · subst h; exact mul_pos ha (hall x (by simp))
    · exact ih (a * x) (mul_pos ha (hall x (by simp)))
        (fun z hz => hall z (List.mem_cons_of_mem x hz)) y h

theorem drawdown_nonpos_aux : ∀ (c : List ℚ) (m : ℚ), 0 < m → (∀ x ∈ c, 0 < x) →
    ∀ d ∈ List.zipWith (fun ci pi => (ci - pi) / pi) c (cummaxAux m c), d ≤ 0 := by
  intro c
  induction c with
  | nil => intro m _ _ d hd; simp at hd
  | cons x xs ih =>
    intro m hm hall d hd
    rw [show cummaxAux m (x :: xs) = (max m x) :: cummaxAux (max m x) xs from rfl] at hd
    rw [List.zipWith_cons_cons] at hd
    rcases List.mem_cons.mp hd with h | h
    · subst h
      have hx : x ≤ max m x := le_max_right m x
      have hmax : 0 < max m x := lt_max_iff.mpr (Or.inl hm)
      exact div_nonpos_iff.mpr (Or.inr ⟨sub_nonpos.mpr hx, hmax.le⟩)
    · exact ih (max m x) (lt_max_iff.mpr (Or.inl hm))
        (fun z hz => hall z (List.mem_cons_of_mem x hz)) d h

theorem foldlMin_mem : ∀ (xs : List ℚ) (x : ℚ), xs.foldl min x ∈ x :: xs := by
  intro xs
  induction xs with
  | nil => intro x; simp
  | cons y ys ih =>
    intro x
    have h := ih (min x y)
    rw [List.foldl_cons]
    rcases List.mem_cons.mp h with h1 | h1
    · rw [h1]
      rcases min_choice x y with hc | hc
      · rw [hc]; simp
      · rw [hc]; simp
    · exact List.mem_cons_of_mem x (List.mem_cons_of_mem y h1)

theorem minQ_mem (l : List ℚ) (h : l ≠ []) : ∃ m, minQ l = some m ∧ m ∈ l := by
  cases l with
  | nil => exact absurd rfl h
  | cons x xs => exact ⟨xs.foldl min x, rfl, foldlMin_mem xs x⟩

theorem pctChange_oneplus_pos : ∀ (l : List ℚ), (∀ v ∈ l, 0 < v) →
    ∀ y ∈ pctChange l, 0 < 1 + y := by
  intro l
  induction l with
  | nil => intro _ y hy; simp [pctChange] at hy
  | cons a t ih =>
    intro hall y hy
    cases t with
    | nil => simp [pctChange] at hy
    | cons b t2 =>
      rw [show pctChange (a :: b :: t2) = (b / a - 1) :: pctChange (b :: t2) from rfl] at hy
      rcases List.mem_cons.mp hy with h | h
      · subst h
        have ha := hall a (by simp)
        have hb := hall b (by simp)
        have : 0 < b / a := div_pos hb ha
        linarith
      · exact ih (fun v hv => hall v (List.mem_cons_of_mem a hv)) y h

theorem cumprodAux_length : ∀ (l : List ℚ) (a : ℚ), (cumprodAux a l).length = l.length := by
  intro l
  induction l with
  | nil => intro a; rfl
  | cons x xs ih => intro a; simp [cumprodAux, ih]

theorem cummaxAux_length : ∀ (l : List ℚ) (m : ℚ), (cummaxAux m l).length = l.length := by
  intro l
  induction l with
  | nil => intro m; rfl
  | cons x xs ih => intro m; simp [cummaxAux, ih]

/-- C10: for every NAV series with strictly positive values and at
least two observations, calculate_maximum_drawdown returns a value
(no NaN) that is never positive: the cumulative-wealth curve never
exceeds its running maximum. -/
theorem c10_max_drawdown_nonpos (nav : List ℚ)
    (hpos : ∀ x ∈ nav, 0 < x) (hlen : 2 ≤ nav.length) :
    ∃ m, maximumDrawdown nav = some m ∧ m ≤ 0 := by
  have hone : ∀ x ∈ (pctChange nav).map (fun x => 1 + x), 0 < x := by
    intro x hx
    rcases List.mem_map.mp hx with ⟨y, hy, rfl⟩
    exact pctChange_oneplus_pos nav hpos y hy
  have hcpos : ∀ y ∈ cumprod ((pctChange nav).map (fun x => 1 + x)), 0 < y :=
    cumprodAux_pos ((pctChange nav).map (fun x => 1 + x)) 1 one_pos hone
  have hclen : (cumprod ((pctChange nav).map (fun x => 1 + x))).length = nav.length - 1 := by
    rw [cumprod, cumprodAux_length]
    simp [pctChange, List.length_zipWith, List.length_tail]
  cases hc : cumprod ((pctChange nav).map (fun x => 1 + x)) with
  | nil =>
    rw [hc] at hclen
    simp at hclen
    omega
  | cons x xs =>
    have hxpos : 0 < x := by
      have := hcpos x (by rw [hc]; simp)
      exact this
    have hddeq : maximumDrawdown nav =
        minQ (((x - x) / x) ::
          List.zipWith (fun ci pi => (ci - pi) / pi) xs (cummaxAux x xs)) := by
      simp only [maximumDrawdown]
      rw [hc]
      rfl
    obtain ⟨m, hm, hmem⟩ := minQ_mem _ (List.cons_ne_nil _ _)
    refine ⟨m, by rw [hddeq]; exact hm, ?_⟩
    rcases List.mem_cons.mp hmem with h | h
    · subst h; simp
    · apply drawdown_nonpos_aux xs x hxpos
      · intro z hz
        exact hcpos z (by rw [hc]; exact List.mem_cons_of_mem x hz)
      · exact h

theorem c10_max_drawdown_witness :
    (∀ x ∈ [(4 : ℚ), 2, 6], 0 < x) ∧ 2 ≤ ([(4 : ℚ), 2, 6]).length ∧
    ∃ m, maximumDrawdown [(4 : ℚ), 2, 6] = some m ∧ m ≤ 0 :=
  ⟨by decide, by decide, c10_max_drawdown_nonpos [(4 : ℚ), 2, 6] (by decide) (by decide)⟩

theorem mem_insertRow (x : CleanRow) (l : List CleanRow) (a : CleanRow) :
    a ∈ insertRow x l ↔ a = x ∨ a ∈ l := by
  induction l with
  | nil => simp [insertRow]
  | cons y ys ih =>
    by_cases hxy : rkey x ≤ rkey y
    · simp [insertRow, hxy]
    · simp [insertRow, hxy, ih]
      tauto

theorem pairwise_insertRow (x : CleanRow) (l : List CleanRow)
    (h : l.Pairwise (fun a b => rkey a ≤ rkey b)) :
    (insertRow x l).Pairwise (fun a b => rkey a ≤ rkey b) := by
  induction l with
  | nil => simp [insertRow]
  | cons y ys ih =>
    rcases List.pairwise_cons.mp h with ⟨hy, hys⟩
    by_cases hxy : rkey x ≤ rkey y
    · rw [show insertRow x (y :: ys) = x :: y :: ys from by simp [insertRow, hxy]]
      refine List.pairwise_cons.mpr ⟨?_, h⟩
      intro b hb
      rcases List.mem_cons.mp hb with h1 | h1
      · subst h1; exact hxy
      · exact le_trans hxy (hy b h1)
    · rw [show insertRow x (y :: ys) = y :: insertRow x ys from by simp [insertRow, hxy]]
      refine List.pairwise_cons.mpr ⟨?_, ih hys⟩
      intro b hb
      rcases (mem_insertRow x ys b).mp hb with h1 | h1
      · subst h1; exact le_of_not_le hxy
      · exact hy b h1

theorem pairwise_sortRows (l : List CleanRow) :
    (sortRows l).Pairwise (fun a b => rkey a ≤ rkey b) := by
  induction l with
  | nil => simp [sortRows]
  | cons x xs ih => exact pairwise_insertRow x (sortRows xs) ih

theorem mem_sortRows : ∀ (l : List CleanRow) (a : CleanRow), a ∈ sortRows l → a ∈ l := by
  intro l
  induction l with
  | nil => intro a h; simp [sortRows] at h
  | cons x xs ih =>
    intro a h
    rcases (mem_insertRow x (sortRows xs) a).mp h with h1 | h1
    · subst h1; simp
    · exact List.mem_cons_of_mem x (ih a h1)

theorem chain'_of_none (l : List (Option ℚ)) (h : ∀ a ∈ l, a = none) :
    List.Chain' (fun a b : Option ℚ => ∀ x y : ℚ, a = some x → b = some y → x ≤ y)
      l := by
  induction l with
  | nil => exact List.chain'_nil
  | cons a t ih =>
    rw [List.chain'_cons']
    constructor
    · intro b hb x y hx hy
      rw [h a (by simp)] at hx
      exact Option.noConfusion hx
    · exact ih (fun a2 ha2 => h a2 (List.mem_cons_of_mem a ha2))

theorem cleanDataframe_ok_inv (cols : RawTable) (out : List CleanRow)
    (h : cleanDataframe cols = .ok out) :
    ∃ sel vals,
      renameStep cols = .ok sel ∧
      floatConverter ((dropnaRows (sel.1.zip sel.2)).map Prod.snd) = some vals ∧
      ((∃ ds, dateConverter ((dropnaRows (sel.1.zip sel.2)).map Prod.fst) = some ds ∧
          out = sortStep ((ds.map some).zip vals)) ∨
       (dateConverter ((dropnaRows (sel.1.zip sel.2)).map Prod.fst) = none ∧
          out = sortStep (vals.map (fun v => ((none : Option ℚ), v))))) := by
  cases hre : renameStep cols with
  | error e =>
    simp only [cleanDataframe, hre, Bind.bind, Except.bind] at h
    exact Except.noConfusion h
  | ok sel =>
    cases hfc : floatConverter ((dropnaRows (sel.1.zip sel.2)).map Prod.snd) with
    | none =>
      simp only [cleanDataframe, hre, hfc, Bind.bind, Except.bind] at h
      exact Except.noConfusion h
    | some vals =>
      refine ⟨sel, vals, rfl, hfc, ?_⟩
      cases hdc : dateConverter ((dropnaRows (sel.1.zip sel.2)).map Prod.fst) with
      | some ds =>
        left
        refine ⟨ds, rfl, ?_⟩
        simp only [cleanDataframe, hre, hfc, hdc, Bind.bind, Except.bind] at h
        exact (Except.ok.inj h).symm
      | none =>
        right
        refine ⟨rfl, ?_⟩
        simp only [cleanDataframe, hre, hfc, hdc, Bind.bind, Except.bind] at h
        exact (Except.ok.inj h).symm

/-- C3 as stated is false on the code: nothing in the cleaning pipeline
deduplicates dates, so a table that repeats a date loads successfully
into a series whose dates are not strictly increasing; and a table
whose date column defeats every parse still loads as a two-row series
with unset dates, because pandas sorts around missing keys instead of
raising. -/
theorem c3_strict_dates_counterexample :
    loadNavData
        [(("Date" : String), [Cell.cstr "2024-01-05", Cell.cstr "2024-01-05"]),
         (("NAV" : String), [Cell.cnum 1, Cell.cnum 2])] =
      .ok [(some 20240105, 1), (some 20240105, 2)] ∧
    ¬ List.Chain' (fun a b : Option ℚ => ∀ x y : ℚ, a = some x → b = some y → x < y)
      [some (20240105 : ℚ), some 20240105] ∧
    loadNavData
        [(("Date" : String), [Cell.cstr "foo", Cell.cstr "bar"]),
         (("NAV" : String), [Cell.cnum 1, Cell.cnum 2])] =
      .ok [((none : Option ℚ), (1 : ℚ)), (none, 2)] ∧
    ((none : Option ℚ)).isSome = false := by
  refine ⟨by decide, ?_, by decide, by decide⟩
  intro hch
  have h1 := (List.chain'_cons.mp hch).1
  exact absurd (h1 20240105 20240105 rfl rfl) (lt_irrefl _)

/-- C3 amended: for every input table that load_nav_data successfully
loads, the produced series has non-decreasing dates wherever dates are
set (duplicate dates are preserved, not deduplicated), every value is a
number, and date parsing is all-or-nothing: either every row carries a
parsed date, or the date column defeated every parse and every row
carries an unset date (pandas sorts around the missing keys, so such
series load at any length). -/
theorem c3_loaded_series_amended (cols : RawTable) (out : List CleanRow)
    (h : loadNavData cols = .ok out) :
    List.Chain' (fun a b => ∀ x y : ℚ, a = some x → b = some y → x ≤ y)
      (out.map Prod.fst) ∧
    ((∀ p ∈ out, p.1.isSome = true) ∨ (∀ p ∈ out, p.1 = none)) := by
  have hcd : cleanDataframe cols = .ok out := by
    cases hc : cleanDataframe cols with
    | error e =>
      simp only [loadNavData] at h
      rw [hc] at h
      exact Except.noConfusion h
    | ok o =>
      simp only [loadNavData] at h
      rw [hc] at h
      injection h with h2
      rw [h2]
  obtain ⟨sel, vals, hre, hfc, hcase⟩ := cleanDataframe_ok_inv cols out hcd
  rcases hcase with ⟨ds, hdc, hout⟩ | ⟨hdc, hout⟩
  · subst hout
    have hall : ∀ p ∈ (ds.map some).zip vals, p.1.isSome = true := by
      intro p hp
      obtain ⟨pd, pv⟩ := p
      have h1 : pd ∈ ds.map some := (List.of_mem_zip hp).1
      obtain ⟨d, _, rfl⟩ := List.mem_map.mp h1
      rfl
    have hfil1 : ((ds.map some).zip vals).filter (fun r => r.1.isSome) =
        (ds.map some).zip vals :=
      List.filter_eq_self.mpr hall
    have hfil2 : ((ds.map some).zip vals).filter (fun r => r.1.isNone) = [] := by
      apply List.filter_eq_nil_iff.mpr
      intro p hp hc
      have hs := hall p hp
      cases hq : p.1 with
      | none => rw [hq] at hs; exact Bool.noConfusion hs
      | some q => rw [hq] at hc; exact Bool.noConfusion hc
    have hss : sortStep ((ds.map some).zip vals) = sortRows ((ds.map some).zip vals) := by
      rw [sortStep, hfil1, hfil2, List.append_nil]
    constructor
    · rw [hss, List.chain'_map]
      refine List.Chain'.imp ?_ ((pairwise_sortRows _).chain')
      intro a b hab x y hx hy
      have hax : rkey a = x := by simp [rkey, hx]
      have hby : rkey b = y := by simp [rkey, hy]
      rw [← hax, ← hby]
      exact hab
    · left
      intro p hp
      rw [hss] at hp
      exact hall p (mem_sortRows _ p hp)
  · subst hout
    have hall : ∀ p ∈ vals.map (fun v => ((none : Option ℚ), v)), p.1 = none := by
      intro p hp
      obtain ⟨v, _, rfl⟩ := List.mem_map.mp hp
      rfl
    have hfil1 : (vals.map (fun v => ((none : Option ℚ), v))).filter
        (fun r => r.1.isSome) = [] := by
      apply List.filter_eq_nil_iff.mpr
      intro p hp hc
      rw [hall p hp] at hc
      exact Bool.noConfusion hc
    have hfil2 : (vals.map (fun v => ((none : Option ℚ), v))).filter
        (fun r => r.1.isNone) = vals.map (fun v => ((none : Option ℚ), v)) := by
      apply List.filter_eq_self.mpr
      intro p hp
      rw [hall p hp]
      rfl
    have hss : sortStep (vals.map (fun v => ((none : Option ℚ), v))) =
        vals.map (fun v => ((none : Option ℚ), v)) := by
      rw [sortStep, hfil1, hfil2]
      rfl
    constructor
    · rw [hss]
      apply chain'_of_none
      intro a ha
      obtain ⟨p, hp, rfl⟩ := List.mem_map.mp ha
      exact hall p hp
    · right
      intro p hp
      rw [hss] at hp
      exact hall p hp

theorem c3_loaded_series_witness :
    loadNavData
        [(("Date" : String), [Cell.cstr "2024-01-05", Cell.cstr "2024-01-05"]),
         (("NAV" : String), [Cell.cnum 1, Cell.cnum 2])] =
      .ok [(some 20240105, 1), (some 20240105, 2)] ∧
    (List.Chain' (fun a b => ∀ x y : ℚ, a = some x → b = some y → x ≤ y)
      (([((some (20240105 : ℚ)), (1 : ℚ)), (some 20240105, 2)]).map Prod.fst) ∧
    ((∀ p ∈ [((some (20240105 : ℚ)), (1 : ℚ)), (some 20240105, 2)], p.1.isSome = true) ∨
     (∀ p ∈ [((some (20240105 : ℚ)), (1 : ℚ)), (some 20240105, 2)], p.1 = none))) :=
  ⟨by decide,
   c3_loaded_series_amended
     [(("Date" : String), [Cell.cstr "2024-01-05", Cell.cstr "2024-01-05"]),
      (("NAV" : String), [Cell.cnum 1, Cell.cnum 2])]
     [(some 20240105, 1), (some 20240105, 2)] (by decide)⟩

/-- C4: for every non-empty cleaned NAV series, total return is
NAV[last]/NAV[first] - 1 and annualized return is
(1 + total) ** (N / n_obs) - 1 where n_obs is the number of rows of the
series; in particular total 1/8 over 250 observations with N = 252
gives (9/8) ** (252/250) - 1. -/
theorem c4_performance (nav : List ℚ) (N : ℕ) (l h : ℚ)
    (hl : nav.getLast? = some l) (hh : nav.head? = some h) :
    calculate_performance nav N =
      some (l / h - 1,
        Real.rpow (1 + ((l / h - 1 : ℚ) : ℝ)) ((N : ℝ) / (nav.length : ℝ)) - 1) ∧
    (nav.length = 250 → N = 252 → l / h - 1 = 1 / 8 →
      calculate_performance nav N =
        some (1 / 8, Real.rpow ((9 : ℝ) / 8) ((252 : ℝ) / (250 : ℝ)) - 1)) := by
  have hmain : calculate_performance nav N =
      some (l / h - 1,
        Real.rpow (1 + ((l / h - 1 : ℚ) : ℝ)) ((N : ℝ) / (nav.length : ℝ)) - 1) := by
    unfold calculate_performance
    rw [hl, hh]
  refine ⟨hmain, ?_⟩
  intro h250 h252 htot
  rw [hmain, htot, h250, h252]
  norm_num

theorem c4_performance_witness :
    wNav250.getLast? = some 9 ∧ wNav250.head? = some 8 ∧ wNav250.length = 250 ∧
    calculate_performance wNav250 252 =
      some (1 / 8, Real.rpow ((9 : ℝ) / 8) ((252 : ℝ) / (250 : ℝ)) - 1) := by
  have hlast : wNav250.getLast? = some 9 := by
    rw [wNav250]
    exact List.getLast?_concat _
  have hhead : wNav250.head? = some 8 := by
    rw [wNav250, show (249 : ℕ) = 248 + 1 from rfl, List.replicate_succ]
    rfl
  have hlen : wNav250.length = 250 := by
    rw [wNav250, List.length_append, List.length_replicate]
    rfl
  refine ⟨hlast, hhead, hlen, ?_⟩
  exact (c4_performance wNav250 252 9 8 hlast hhead).2 hlen rfl (by norm_num)

theorem ratioSat_spec (ae av : Option ℝ) :
    (ratioWithSaturation ae av = SVal.posInf ↔
      av = some 0 ∧ ∃ e, ae = some e ∧ 0 < e) ∧
    (ratioWithSaturation ae av = SVal.negInf ↔
      av = some 0 ∧ ¬ ∃ e, ae = some e ∧ 0 < e) ∧
    (∀ x : ℝ, ratioWithSaturation ae av = SVal.val x ↔
      ∃ e v, ae = some e ∧ av = some v ∧ v ≠ 0 ∧ x = e / v) := by
  by_cases hv : av = some 0
  · cases ae with
    | none => simp [ratioWithSaturation, hv]
    | some e =>
      by_cases he : 0 < e
      · simp [ratioWithSaturation, hv, he]
      · simp [ratioWithSaturation, hv, he]
  · cases ae with
    | none =>
      cases av with
      | none => simp [ratioWithSaturation, hv]
      | some v => simp [ratioWithSaturation, hv]
    | some e =>
      cases av with
      | none => simp [ratioWithSaturation, hv]
      | some v =>
        have hv0 : v ≠ 0 := fun hz => hv (by rw [hz])
        simp [ratioWithSaturation, hv, hv0]
        intro x
        constructor
        · intro hx; exact hx.symm
        · intro hx; exact hx.symm

/-- C5: Sharpe is annualized excess over annualized volatility and
Sortino is annualized excess over downside volatility; each saturates
to +inf exactly when the respective volatility is exactly zero and the
excess is > 0, to -inf exactly when the volatility is exactly zero and
the excess is not > 0 (including NaN), and produces the plain finite
quotient exactly when the volatility is a nonzero number — never for a
small-but-nonzero volatility, and never a division error (the
embedding is a total function). -/
theorem c5_sharpe_sortino_saturation (nav rf : Series) (N : ℕ) :
    (calcSharpe nav rf N = SVal.posInf ↔
      calculate_volatility nav N = some 0 ∧
      ∃ e, annualizedExcess nav rf N = some e ∧ 0 < e) ∧
    (calcSharpe nav rf N = SVal.negInf ↔
      calculate_volatility nav N = some 0 ∧
      ¬ ∃ e, annualizedExcess nav rf N = some e ∧ 0 < e) ∧
    (∀ x : ℝ, calcSharpe nav rf N = SVal.val x ↔
      ∃ e v, annualizedExcess nav rf N = some e ∧
        calculate_volatility nav N = some v ∧ v ≠ 0 ∧ x = e / v) ∧
    (calcSortino nav rf N = SVal.posInf ↔
      downsideVol nav rf N = some 0 ∧
      ∃ e, annualizedExcess nav rf N = some e ∧ 0 < e) ∧
    (calcSortino nav rf N = SVal.negInf ↔
      downsideVol nav rf N = some 0 ∧
      ¬ ∃ e, annualizedExcess nav rf N = some e ∧ 0 < e) ∧
    (∀ x : ℝ, calcSortino nav rf N = SVal.val x ↔
      ∃ e v, annualizedExcess nav rf N = some e ∧
        downsideVol nav rf N = some v ∧ v ≠ 0 ∧ x = e / v) := by
  have h1 := ratioSat_spec (annualizedExcess nav rf N) (calculate_volatility nav N)
  have h2 := ratioSat_spec (annualizedExcess nav rf N) (downsideVol nav rf N)
  exact ⟨h1.1, h1.2.1, h1.2.2, h2.1, h2.2.1, h2.2.2⟩

theorem c5_sharpe_sortino_witness :
    calcSharpe [((0 : ℤ), (1 : ℚ)), (1, 2)] [((1 : ℤ), (0 : ℚ))] 252 = SVal.posInf ↔
      calculate_volatility [((0 : ℤ), (1 : ℚ)), (1, 2)] 252 = some 0 ∧
      ∃ e, annualizedExcess [((0 : ℤ), (1 : ℚ)), (1, 2)] [((1 : ℤ), (0 : ℚ))] 252 =
        some e ∧ 0 < e :=
  (c5_sharpe_sortino_saturation [((0 : ℤ), (1 : ℚ)), (1, 2)] [((1 : ℤ), (0 : ℚ))] 252).1

theorem filterMap_congr_mem {α β : Type} (f g : α → Option β) :
    ∀ (l : List α), (∀ a ∈ l, f a = g a) → l.filterMap f = l.filterMap g := by
  intro l
  induction l with
  | nil => intro _; rfl
  | cons x xs ih =>
    intro h
    rw [List.filterMap_cons, List.filterMap_cons, h x (by simp),
      ih (fun a ha => h a (List.mem_cons_of_mem x ha))]

theorem joinWith_nil {α : Type} (f : ℤ × ℚ → ℚ → α) :
    ∀ (l : Series), joinWith f l [] = [] := by
  intro l
  induction l with
  | nil => rfl
  | cons p ps ih =>
    rw [joinWith, List.filterMap_cons]
    rw [joinWith] at ih
    simp only [slookup, Option.map_none']
    exact ih

/-- Inner alignment of two series that share one grid of distinct
labels touches every row: the lookup of each key of a in b finds the
value at the same position. -/
theorem joinWith_zip {α : Type} (f : ℤ × ℚ → ℚ → α) :
    ∀ (ks : List ℤ) (xs ys : List ℚ), ks.Nodup →
      joinWith f (ks.zip xs) (ks.zip ys) = List.zipWith f (ks.zip xs) ys := by
  intro ks
  induction ks with
  | nil => intro xs ys _; rfl
  | cons k ks ih =>
    intro xs ys hnd
    rcases List.nodup_cons.mp hnd with ⟨hk, hnd2⟩
    cases xs with
    | nil => rfl
    | cons x xs2 =>
      cases ys with
      | nil =>
        rw [List.zip_nil_right, joinWith_nil, List.zipWith_nil_right]
      | cons y ys2 =>
        have hsl : slookup k ((k, y) :: ks.zip ys2) = some y := by
          simp [slookup]
        have htail : ∀ p ∈ ks.zip xs2,
            (slookup p.1 ((k, y) :: ks.zip ys2)).map (f p) =
            (slookup p.1 (ks.zip ys2)).map (f p) := by
          intro p hp
          obtain ⟨pk, pv⟩ := p
          have hp1 : pk ∈ ks := (List.of_mem_zip hp).1
          have hne : ¬(k = pk) := fun hc => hk (hc ▸ hp1)
          simp [slookup, hne]
        show joinWith f ((k, x) :: ks.zip xs2) ((k, y) :: ks.zip ys2) =
          List.zipWith f ((k, x) :: ks.zip xs2) (y :: ys2)
        calc joinWith f ((k, x) :: ks.zip xs2) ((k, y) :: ks.zip ys2)
            = f (k, x) y :: (ks.zip xs2).filterMap
                (fun p => (slookup p.1 ((k, y) :: ks.zip ys2)).map (f p)) := by
              rw [joinWith, List.filterMap_cons, hsl]
              rfl
          _ = f (k, x) y :: (ks.zip xs2).filterMap
                (fun p => (slookup p.1 (ks.zip ys2)).map (f p)) := by
              rw [filterMap_congr_mem _ _ _ htail]
          _ = f (k, x) y :: joinWith f (ks.zip xs2) (ks.zip ys2) := rfl
          _ = f (k, x) y :: List.zipWith f (ks.zip xs2) ys2 := by
              rw [ih xs2 ys2 hnd2]
          _ = List.zipWith f ((k, x) :: ks.zip xs2) (y :: ys2) := rfl

theorem zipWith_subform :
    ∀ (ks : List ℤ) (xs ys : List ℚ),
      List.zipWith (fun (p : ℤ × ℚ) (w : ℚ) => (p.1, p.2 - w)) (ks.zip xs) ys =
      ks.zip (List.zipWith (fun a b => a - b) xs ys) := by
  intro ks
  induction ks with
  | nil => intro xs ys; rfl
  | cons k ks ih =>
    intro xs ys
    cases xs with
    | nil => rfl
    | cons x xs2 =>
      cases ys with
      | nil => rfl
      | cons y ys2 =>
        show (k, x - y) :: List.zipWith _ (ks.zip xs2) ys2 =
          (k, x - y) :: ks.zip (List.zipWith (fun a b => a - b) xs2 ys2)
        rw [ih xs2 ys2]

theorem zipWith_tripform :
    ∀ (ks : List ℤ) (xs ys : List ℚ),
      List.zipWith (fun (p : ℤ × ℚ) (w : ℚ) => (p.1, p.2, w)) (ks.zip xs) ys =
      ks.zip (xs.zip ys) := by
  intro ks
  induction ks with
  | nil => intro xs ys; rfl
  | cons k ks ih =>
    intro xs ys
    cases xs with
    | nil => rfl
    | cons x xs2 =>
      cases ys with
      | nil => rfl
      | cons y ys2 =>
        show (k, x, y) :: List.zipWith _ (ks.zip xs2) ys2 =
          (k, x, y) :: ks.zip (xs2.zip ys2)
        rw [ih xs2 ys2]

/-- C1: on a shared date grid, calculate_alpha_beta inner-joins the
fund excess returns with the benchmark excess returns (benchmark minus
risk-free) and returns beta = cov(fund_excess, bench_excess) /
var(bench_excess) (np.cov uses ddof 1, np.var ddof 0) and
alpha = (mean(fund_excess) - beta * mean(bench_excess)) * N; when the
aligned series are empty or the benchmark-excess variance is zero both
alpha and beta are NaN (none), and no exception is possible (the
embedding is a total function). -/
theorem c1_alpha_beta (N : ℕ) (nav rf bench : Series) (ks : List ℤ)
    (fv rv bv : List ℚ)
    (hfr : dailyReturnsS nav = ks.zip fv) (hrf : rf = ks.zip rv)
    (hbv : bench = ks.zip bv) (hnd : ks.Nodup)
    (hlf : fv.length = ks.length) (hlr : rv.length = ks.length)
    (hlb : bv.length = ks.length) :
    calcAlphaBeta nav rf bench N =
      (if ks = [] then none
       else if popVar (List.zipWith (fun a b => a - b) bv rv) = 0 then none
       else
         some ((meanQ (List.zipWith (fun a b => a - b) fv rv) -
             (sampleCov (List.zipWith (fun a b => a - b) fv rv)
                 (List.zipWith (fun a b => a - b) bv rv) /
               popVar (List.zipWith (fun a b => a - b) bv rv)) *
             meanQ (List.zipWith (fun a b => a - b) bv rv)) * (N : ℚ),
           sampleCov (List.zipWith (fun a b => a - b) fv rv)
               (List.zipWith (fun a b => a - b) bv rv) /
             popVar (List.zipWith (fun a b => a - b) bv rv))) := by
  subst hrf
  subst hbv
  have hfe : seriesSub (dailyReturnsS nav) (ks.zip rv) =
      ks.zip (List.zipWith (fun a b => a - b) fv rv) := by
    rw [hfr, seriesSub, joinWith_zip _ ks fv rv hnd, zipWith_subform]
  have hbe : seriesSub (ks.zip bv) (ks.zip rv) =
      ks.zip (List.zipWith (fun a b => a - b) bv rv) := by
    rw [seriesSub, joinWith_zip _ ks bv rv hnd, zipWith_subform]
  have hlfe : (List.zipWith (fun a b => a - b) fv rv).length = ks.length := by
    rw [List.length_zipWith, hlf, hlr, min_self]
  have hlbe : (List.zipWith (fun a b => a - b) bv rv).length = ks.length := by
    rw [List.length_zipWith, hlb, hlr, min_self]
  have hjoin : alignInner (ks.zip (List.zipWith (fun a b => a - b) fv rv))
      (ks.zip (List.zipWith (fun a b => a - b) bv rv)) =
      ks.zip ((List.zipWith (fun a b => a - b) fv rv).zip
        (List.zipWith (fun a b => a - b) bv rv)) := by
    rw [alignInner, joinWith_zip _ ks _ _ hnd, zipWith_tripform]
  by_cases hks : ks = []
  · subst hks
    have h0 : fv = [] := List.length_eq_zero.mp (by rw [hlf]; rfl)
    subst h0
    simp [calcAlphaBeta, hfr, seriesSub, alignInner, joinWith]
  · have hzl : (ks.zip ((List.zipWith (fun a b => a - b) fv rv).zip
        (List.zipWith (fun a b => a - b) bv rv))).length = ks.length := by
      rw [List.length_zip, List.length_zip, hlfe, hlbe, min_self, min_self]
    have hne : ks.zip ((List.zipWith (fun a b => a - b) fv rv).zip
        (List.zipWith (fun a b => a - b) bv rv)) ≠ [] := by
      intro hcnil
      apply hks
      apply List.length_eq_zero.mp
      rw [← hzl, hcnil, List.length_nil]
    have hxs : (ks.zip ((List.zipWith (fun a b => a - b) fv rv).zip
        (List.zipWith (fun a b => a - b) bv rv))).map (fun t => t.2.1) =
        List.zipWith (fun a b => a - b) fv rv := by
      rw [show (fun t : ℤ × ℚ × ℚ => t.2.1) = Prod.fst ∘ Prod.snd from rfl,
        ← List.map_map, List.map_snd_zip, List.map_fst_zip] <;>
        simp [List.length_zip, hlfe, hlbe]
    have hys : (ks.zip ((List.zipWith (fun a b => a - b) fv rv).zip
        (List.zipWith (fun a b => a - b) bv rv))).map (fun t => t.2.2) =
        List.zipWith (fun a b => a - b) bv rv := by
      rw [show (fun t : ℤ × ℚ × ℚ => t.2.2) = Prod.snd ∘ Prod.snd from rfl,
        ← List.map_map, List.map_snd_zip, List.map_snd_zip] <;>
        simp [List.length_zip, hlfe, hlbe]
    simp only [calcAlphaBeta, hfe, hbe, hjoin, hxs, hys, if_neg hne, if_neg hks]

theorem c1_alpha_beta_witness :
    dailyReturnsS [((-1 : ℤ), (1 : ℚ)), (0, 2), (1, 1)] =
      ([(0 : ℤ), 1]).zip [(1 : ℚ), -(1 / 2)] ∧
    ([(0 : ℤ), 1]).Nodup ∧
    calcAlphaBeta [((-1 : ℤ), (1 : ℚ)), (0, 2), (1, 1)]
        (([(0 : ℤ), 1]).zip [(0 : ℚ), 0]) (([(0 : ℤ), 1]).zip [(1 : ℚ), 2]) 252 =
      (if ([(0 : ℤ), 1]) = [] then none
       else if popVar (List.zipWith (fun a b => a - b) [(1 : ℚ), 2] [(0 : ℚ), 0]) = 0
       then none
       else
         some ((meanQ (List.zipWith (fun a b => a - b) [(1 : ℚ), -(1 / 2)] [(0 : ℚ), 0]) -
             (sampleCov (List.zipWith (fun a b => a - b) [(1 : ℚ), -(1 / 2)] [(0 : ℚ), 0])
                 (List.zipWith (fun a b => a - b) [(1 : ℚ), 2] [(0 : ℚ), 0]) /
               popVar (List.zipWith (fun a b => a - b) [(1 : ℚ), 2] [(0 : ℚ), 0])) *
             meanQ (List.zipWith (fun a b => a - b) [(1 : ℚ), 2] [(0 : ℚ), 0])) * ((252 : ℕ) : ℚ),
           sampleCov (List.zipWith (fun a b => a - b) [(1 : ℚ), -(1 / 2)] [(0 : ℚ), 0])
               (List.zipWith (fun a b => a - b) [(1 : ℚ), 2] [(0 : ℚ), 0]) /
             popVar (List.zipWith (fun a b => a - b) [(1 : ℚ), 2] [(0 : ℚ), 0]))) :=
  ⟨by norm_num [dailyReturnsS], by decide,
   c1_alpha_beta 252 [((-1 : ℤ), (1 : ℚ)), (0, 2), (1, 1)]
     (([(0 : ℤ), 1]).zip [(0 : ℚ), 0]) (([(0 : ℤ), 1]).zip [(1 : ℚ), 2])
     [(0 : ℤ), 1] [(1 : ℚ), -(1 / 2)] [(0 : ℚ), 0] [(1 : ℚ), 2]
     (by norm_num [dailyReturnsS]) rfl rfl (by decide) (by decide) (by decide)
     (by decide)⟩

/-- C8: reporting_stats assembles exactly 14 metrics in the fixed
order annualized return, total return, volatility, Sharpe, Sortino,
downside volatility, total excess return, annualized excess return,
beta, tracking error, alpha, beta-up, beta-down, maximum drawdown; the
portfolio report labels its rows with the metric names in that same
order. -/
theorem c8_reporting (nav rf bench : Series) (N : ℕ) (hnav : nav ≠ []) :
    ∃ tot ann, calculate_performance (seriesValues nav) N = some (tot, ann) ∧
      reportingStats nav rf bench N =
        some [SVal.val ann, SVal.val ((tot : ℚ) : ℝ),
          svalOfR (calculate_volatility nav N),
          calcSharpe nav rf N, calcSortino nav rf N,
          svalOfR (downsideVol nav rf N),
          svalOfQ ((calculate_excess_returns nav rf N).map Prod.fst),
          svalOfR (annualizedExcess nav rf N),
          svalOfQ ((calcAlphaBeta nav rf bench N).map Prod.snd),
          svalOfR (trackingError nav bench N),
          svalOfQ ((calcAlphaBeta nav rf bench N).map Prod.fst),
          svalOfQ (betaUpDown nav rf bench).1,
          svalOfQ (betaUpDown nav rf bench).2,
          svalOfQ (maximumDrawdown (seriesValues nav))] ∧
      (∀ l, reportingStats nav rf bench N = some l → l.length = 14) ∧
      reportLabels = ["Perf annualisée", "Perf totale", "Vol", "Sharpe", "Sortino",
        "Downside vol", "Rendement excédentaire total",
        "Rendemente excédentaire annualisé", "beta", "TE", "alpha",
        "beta up", "beta down", "MDD"] ∧
      reportLabels.length = 14 := by
  have hv : seriesValues nav ≠ [] := by
    intro hc
    exact hnav (List.map_eq_nil_iff.mp hc)
  cases hgl : (seriesValues nav).getLast? with
  | none => exact absurd (List.getLast?_eq_none_iff.mp hgl) hv
  | some l0 =>
    cases hhd : (seriesValues nav).head? with
    | none => exact absurd (List.head?_eq_none_iff.mp hhd) hv
    | some h0 =>
      have hperf : calculate_performance (seriesValues nav) N =
          some (l0 / h0 - 1,
            Real.rpow (1 + ((l0 / h0 - 1 : ℚ) : ℝ))
              ((N : ℝ) / ((seriesValues nav).length : ℝ)) - 1) := by
        unfold calculate_performance
        rw [hgl, hhd]
      refine ⟨l0 / h0 - 1, _, hperf, ?_, ?_, rfl, rfl⟩
      · simp only [reportingStats, hperf]
      · intro l hl
        simp only [reportingStats, hperf] at hl
        injection hl with hl2
        rw [← hl2]
        rfl

theorem c8_reporting_witness :
    ([((0 : ℤ), (1 : ℚ)), (1, 2)] : Series) ≠ [] ∧
    ∃ tot ann,
      calculate_performance (seriesValues [((0 : ℤ), (1 : ℚ)), (1, 2)]) 252 =
        some (tot, ann) ∧
      reportingStats [((0 : ℤ), (1 : ℚ)), (1, 2)] [((1 : ℤ), (0 : ℚ))]
          [((1 : ℤ), (1 : ℚ))] 252 =
        some [SVal.val ann, SVal.val ((tot : ℚ) : ℝ),
          svalOfR (calculate_volatility [((0 : ℤ), (1 : ℚ)), (1, 2)] 252),
          calcSharpe [((0 : ℤ), (1 : ℚ)), (1, 2)] [((1 : ℤ), (0 : ℚ))] 252,
          calcSortino [((0 : ℤ), (1 : ℚ)), (1, 2)] [((1 : ℤ), (0 : ℚ))] 252,
          svalOfR (downsideVol [((0 : ℤ), (1 : ℚ)), (1, 2)] [((1 : ℤ), (0 : ℚ))] 252),
          svalOfQ ((calculate_excess_returns [((0 : ℤ), (1 : ℚ)), (1, 2)]
            [((1 : ℤ), (0 : ℚ))] 252).map Prod.fst),
          svalOfR (annualizedExcess [((0 : ℤ), (1 : ℚ)), (1, 2)] [((1 : ℤ), (0 : ℚ))] 252),
          svalOfQ ((calcAlphaBeta [((0 : ℤ), (1 : ℚ)), (1, 2)] [((1 : ℤ), (0 : ℚ))]
            [((1 : ℤ), (1 : ℚ))] 252).map Prod.snd),
          svalOfR (trackingError [((0 : ℤ), (1 : ℚ)), (1, 2)] [((1 : ℤ), (1 : ℚ))] 252),
          svalOfQ ((calcAlphaBeta [((0 : ℤ), (1 : ℚ)), (1, 2)] [((1 : ℤ), (0 : ℚ))]
            [((1 : ℤ), (1 : ℚ))] 252).map Prod.fst),
          svalOfQ (betaUpDown [((0 : ℤ), (1 : ℚ)), (1, 2)] [((1 : ℤ), (0 : ℚ))]
            [((1 : ℤ), (1 : ℚ))]).1,
          svalOfQ (betaUpDown [((0 : ℤ), (1 : ℚ)), (1, 2)] [((1 : ℤ), (0 : ℚ))]
            [((1 : ℤ), (1 : ℚ))]).2,
          svalOfQ (maximumDrawdown (seriesValues [((0 : ℤ), (1 : ℚ)), (1, 2)]))] ∧
      (∀ l, reportingStats [((0 : ℤ), (1 : ℚ)), (1, 2)] [((1 : ℤ), (0 : ℚ))]
          [((1 : ℤ), (1 : ℚ))] 252 = some l → l.length = 14) ∧
      reportLabels = ["Perf annualisée", "Perf totale", "Vol", "Sharpe", "Sortino",
        "Downside vol", "Rendement excédentaire total",
        "Rendemente excédentaire annualisé", "beta", "TE", "alpha",
        "beta up", "beta down", "MDD"] ∧
      reportLabels.length = 14 :=
  ⟨by decide,
   c8_reporting [((0 : ℤ), (1 : ℚ)), (1, 2)] [((1 : ℤ), (0 : ℚ))]
     [((1 : ℤ), (1 : ℚ))] 252 (by decide)⟩
